import Mathlib

/-!
Verification of the report-section extraction and evaluation pipeline
(src/process_reports.py and src/evaluate_system.py), shallowly embedded
over `List Char`; Python floats are modelled as exact rationals.
-/

/-- Python whitespace characters (ASCII subset relevant to `\s` and `str.strip`). -/
def isPySpace (c : Char) : Bool :=
  c == ' ' || c == '\t' || c == '\n' || c == '\r' || c == Char.ofNat 11 || c == Char.ofNat 12

/-- Python `str.strip()`: drop leading and trailing whitespace. -/
def pyStrip (s : List Char) : List Char :=
  ((s.dropWhile isPySpace).reverse.dropWhile isPySpace).reverse

/-- Lower-case a string, as Python `str.lower()` on ASCII text. -/
def toLowerL (s : List Char) : List Char := s.map Char.toLower

/-- Case-insensitive prefix test, as used by `re.IGNORECASE` literal matching. -/
def ciIsPrefixOf : List Char → List Char → Bool
  | [], _ => true
  | _ :: _, [] => false
  | a :: as, b :: bs => (a.toLower == b.toLower) && ciIsPrefixOf as bs

/-- Index of the first case-insensitive occurrence of `needle` in `hay`, if any. -/
def ciFind (needle : List Char) : List Char → Option Nat
  | [] => if ciIsPrefixOf needle [] then some 0 else none
  | c :: rest =>
    if ciIsPrefixOf needle (c :: rest) then some 0
    else (ciFind needle rest).map (· + 1)

/-- True when every case-insensitive occurrence of `needle` in `hay` starts at
index `n` or later (vacuously true when there is none). -/
def ciFindGe (needle hay : List Char) (n : Nat) : Bool :=
  match ciFind needle hay with
  | none => true
  | some i => Nat.ble n i

/-- Take characters until some terminator label matches case-insensitively, as the
lazy capture `(.*?)(?=T1|T2|...|$)` does (the `$` alternative and the `\s*` the
source puts before the capture are absorbed by the final `strip`). -/
def takeUntilAny (terms : List (List Char)) : List Char → List Char
  | [] => []
  | c :: rest =>
    if terms.any (fun t => ciIsPrefixOf t (c :: rest)) then []
    else c :: takeUntilAny terms rest

/-- Scan for the first position where one of the (non-empty) label alternatives
matches case-insensitively and return the text after that label, as
`re.search` does for a pattern beginning with a literal label alternation. -/
def dropAfterFirstLabelCI (labels : List (List Char)) : List Char → Option (List Char)
  | [] => none
  | c :: rest =>
    match labels.find? (fun l => ciIsPrefixOf l (c :: rest)) with
    | some lab => some (List.drop lab.length (c :: rest))
    | none => dropAfterFirstLabelCI labels rest

/-- One field of `extract_report_sections`: the regex
`LABELS:\s*(.*?)(?=T1|...|$)` with DOTALL and IGNORECASE, then `.strip()`,
and the empty string when the label is absent. -/
def extractField (labels terms : List (List Char)) (text : List Char) : List Char :=
  match dropAfterFirstLabelCI labels text with
  | none => []
  | some rest => pyStrip (takeUntilAny terms rest)

def exL : List Char := "examination:".toList
def cdL : List Char := "clinical details:".toList
def cmpL : List Char := "comparison:".toList
def fndL : List Char := "findings:".toList
def repL : List Char := "report:".toList
def cncL : List Char := "conclusion:".toList
def impL : List Char := "impression:".toList
def rbL : List Char := "reported by:".toList

/-- The mapping returned by `extract_report_sections` (always exactly these
five keys). -/
structure ExtractedSections where
  examination : List Char
  clinical_details : List Char
  comparison : List Char
  findings : List Char
  conclusion : List Char
deriving DecidableEq

/-- Shallow embedding of `extract_report_sections` from src/process_reports.py. -/
def extract_report_sections (text : List Char) : ExtractedSections :=
  { examination := extractField [exL] [cdL, cmpL, fndL] text
    clinical_details := extractField [cdL] [cmpL, fndL] text
    comparison := extractField [cmpL] [fndL] text
    findings := extractField [fndL, repL] [cncL, impL, rbL] text
    conclusion := extractField [cncL, impL] [rbL] text }

/-- Python substring test `needle in hay` (exact, both sides already lowered
where the source lowers them). -/
def containsSub (needle : List Char) : List Char → Bool
  | [] => needle.isEmpty
  | c :: rest => needle.isPrefixOf (c :: rest) || containsSub needle rest

/-- Python `str.split()` with no argument: split on whitespace runs, dropping
empty pieces (helper carrying the chunk accumulated so far, reversed). -/
def pySplitGo : List Char → List Char → List (List Char)
  | [], acc => if acc.isEmpty then [] else [acc.reverse]
  | c :: rest, acc =>
    if isPySpace c then
      if acc.isEmpty then pySplitGo rest [] else acc.reverse :: pySplitGo rest []
    else pySplitGo rest (c :: acc)

def pySplit (s : List Char) : List (List Char) := pySplitGo s []

/-- The four flags returned by `check_section_completeness`. -/
structure SectionFlags where
  clinical_assessment : Bool
  differential_diagnosis : Bool
  clinical_correlation : Bool
  recommendations : Bool
deriving DecidableEq

/-- Shallow embedding of `DiagnosticEvaluator.check_section_completeness`. -/
def check_section_completeness (ai_diagnosis : List Char) : SectionFlags :=
  let t := toLowerL ai_diagnosis
  { clinical_assessment := containsSub "clinical assessment".toList t || containsSub "1.".toList t
    differential_diagnosis := containsSub "differential diagnosis".toList t || containsSub "2.".toList t
    clinical_correlation := containsSub "clinical correlation".toList t || containsSub "3.".toList t
    recommendations := containsSub "recommendation".toList t || containsSub "4.".toList t }

/-- The score `sum(section_completeness.values()) / len(section_completeness)`
computed in `evaluate_single_case`. -/
def completenessScore (s : SectionFlags) : ℚ :=
  ((if s.clinical_assessment then 1 else 0) + (if s.differential_diagnosis then 1 else 0)
    + (if s.clinical_correlation then 1 else 0) + (if s.recommendations then 1 else 0)) / 4

/-- The evaluator's fixed list `adult_only_conditions`. -/
def adult_only_conditions : List (List Char) :=
  ["osteoarthritis".toList, "degenerative".toList, "rotator cuff".toList,
   "degenerative disc disease".toList, "age-related".toList,
   "wear and tear".toList, "arthropathy".toList]

/-- Shallow embedding of `DiagnosticEvaluator.detect_inappropriate_diagnoses`. -/
def detect_inappropriate_diagnoses (ai_diagnosis : List Char) : List (List Char) :=
  adult_only_conditions.filter (fun c => containsSub c (toLowerL ai_diagnosis))

/-- The flag `1.0 if len(inappropriate) == 0 else 0.0` computed per case in
`evaluate_single_case`. -/
def pediatricAppropriateness (ai_diagnosis : List Char) : ℚ :=
  if (detect_inappropriate_diagnoses ai_diagnosis).length = 0 then 1 else 0

/-- The dictionary returned by `check_differential_coverage`. -/
structure CoverageResult where
  mentioned : List (List Char)
  missed : List (List Char)
  coverage_rate : ℚ
  total_expected : Nat
deriving DecidableEq

/-- One expected diagnosis counts as mentioned when some whitespace-delimited
term of its lower-casing, longer than 3 characters, is a substring of the
lowered response. -/
def diagnosisMentioned (text_lower diagnosis : List Char) : Bool :=
  (pySplit (toLowerL diagnosis)).any (fun term => decide (3 < term.length) && containsSub term text_lower)

/-- Shallow embedding of `DiagnosticEvaluator.check_differential_coverage`. -/
def check_differential_coverage (ai_diagnosis : List Char) (expected_diagnoses : List (List Char)) :
    CoverageResult :=
  let text_lower := toLowerL ai_diagnosis
  let mentioned := expected_diagnoses.filter (fun d => diagnosisMentioned text_lower d)
  let missed := expected_diagnoses.filter (fun d => !diagnosisMentioned text_lower d)
  { mentioned := mentioned
    missed := missed
    coverage_rate :=
      if expected_diagnoses.isEmpty then 0
      else (mentioned.length : ℚ) / (expected_diagnoses.length : ℚ)
    total_expected := expected_diagnoses.length }

/-- Ground-truth record as the evaluator reads it (`filename`, `annotated`, and
the `ground_truth` sub-object fields it uses; fields the evaluator never
reads, such as key findings and recommendations, are omitted). -/
structure GroundTruthCase where
  filename : List Char
  annotated : Bool
  primary_diagnosis : List Char
  differential_diagnoses : List (List Char)
deriving DecidableEq

/-- The filter applied in `DiagnosticEvaluator.__init__`: keep only entries
whose `annotated` flag is true (a missing key reads as false). -/
def load_ground_truth (raw : List GroundTruthCase) : List GroundTruthCase :=
  raw.filter (fun g => g.annotated)

/-- The lookup in `evaluate_single_case`:
`next((g for g in self.ground_truth if g.filename == filename), None)`. -/
def findGT (gts : List GroundTruthCase) (filename : List Char) : Option GroundTruthCase :=
  gts.find? (fun g => g.filename == filename)

/-- The per-case dictionary built by `evaluate_single_case` (the
`ground_truth_info` sub-dictionary is flattened into the two `gt_` fields;
`processing_time` is attached by `evaluate_batch`). -/
structure CaseEvaluation where
  filename : List Char
  section_completeness : SectionFlags
  completeness_score : ℚ
  differential_coverage : CoverageResult
  inappropriate_diagnoses_found : List (List Char)
  pediatric_appropriateness : ℚ
  gt_primary_diagnosis : List Char
  gt_expected_differentials : List (List Char)
  processing_time : ℚ
deriving DecidableEq

/-- Shallow embedding of `DiagnosticEvaluator.evaluate_single_case`; `none`
models the `{error: ...}` dictionary returned when no ground truth matches. -/
def evaluate_single_case (gts : List GroundTruthCase) (filename ai_diagnosis : List Char) :
    Option CaseEvaluation :=
  match findGT gts filename with
  | none => none
  | some gt =>
    let flags := check_section_completeness ai_diagnosis
    some
      { filename := filename
        section_completeness := flags
        completeness_score := completenessScore flags
        differential_coverage := check_differential_coverage ai_diagnosis gt.differential_diagnoses
        inappropriate_diagnoses_found := detect_inappropriate_diagnoses ai_diagnosis
        pediatric_appropriateness := pediatricAppropriateness ai_diagnosis
        gt_primary_diagnosis := gt.primary_diagnosis
        gt_expected_differentials := gt.differential_diagnoses
        processing_time := 0 }

/-- One entry of a batch-results file as `evaluate_batch` reads it:
`result.get('filename')` may be absent (`none`), `result.get('ai_diagnosis', '')`
defaults to the empty string. -/
structure ModelResult where
  filename : Option (List Char)
  ai_diagnosis : List Char
  processing_time : ℚ
deriving DecidableEq

/-- The body of the loop in `evaluate_batch`: the truthiness guard
`if filename and ai_diagnosis`, the single-case evaluation, the error filter,
and the attachment of `processing_time`. -/
def evalOneResult (gts : List GroundTruthCase) (r : ModelResult) : Option CaseEvaluation :=
  match r.filename with
  | none => none
  | some fn =>
    if fn.isEmpty || r.ai_diagnosis.isEmpty then none
    else (evaluate_single_case gts fn r.ai_diagnosis).map
      (fun ev => { ev with processing_time := r.processing_time })

/-- The list `evaluations` accumulated by `evaluate_batch`. -/
def evaluate_batch_evals (gts : List GroundTruthCase) (results : List ModelResult) :
    List CaseEvaluation :=
  results.filterMap (evalOneResult gts)

/-- Python `round(x, 3)` on an exactly represented value: round half to even at
three decimal places (`n` is the floor of `1000 q`, `rem / den` its fractional
part; the comparisons with one half are done on integers). -/
def pyRound3 (q : ℚ) : ℚ :=
  let scaled : ℚ := q * 1000
  let n : ℤ := Int.fdiv scaled.num (scaled.den : ℤ)
  let rem : ℤ := scaled.num - n * (scaled.den : ℤ)
  let r : ℤ :=
    if 2 * rem < (scaled.den : ℤ) then n
    else if (scaled.den : ℤ) < 2 * rem then n + 1
    else if n % 2 = 0 then n else n + 1
  (r : ℚ) / 1000

set_option maxRecDepth 4000

/-- The percentage sub-dictionary `section_presence_percentage`. -/
structure SectionPct where
  clinical_assessment : ℚ
  differential_diagnosis : ℚ
  clinical_correlation : ℚ
  recommendations : ℚ
deriving DecidableEq

/-- The `inappropriate_frequency` dictionary built by the counting loop in
`evaluate_batch`, modelled as a total function (absent key reads as 0). -/
def buildFreq (l : List (List Char)) : List Char → ℕ :=
  l.foldl (fun f d => fun x => if x = d then f d + 1 else f x) (fun _ => 0)

/-- The `summary` dictionary returned by `evaluate_batch`. -/
structure BatchSummary where
  total_cases_evaluated : ℕ
  average_completeness_score : ℚ
  average_differential_coverage : ℚ
  pediatric_appropriateness_rate : ℚ
  cases_with_inappropriate_diagnoses : ℚ
  section_presence_percentage : SectionPct
  inappropriate_diagnoses_frequency : List Char → ℕ
  individual_evaluations : List CaseEvaluation

/-- The aggregate statistics of `evaluate_batch`, computed from the accumulated
`evaluations` list (meaningful when it is non-empty). -/
def computeSummary (evals : List CaseEvaluation) : BatchSummary :=
  let total : ℚ := (evals.length : ℚ)
  let avg_completeness := (evals.map (fun e => e.completeness_score)).sum / total
  let avg_coverage := (evals.map (fun e => e.differential_coverage.coverage_rate)).sum / total
  let appropriate_count := (evals.map (fun e => e.pediatric_appropriateness)).sum
  let all_inappropriate := (evals.map (fun e => e.inappropriate_diagnoses_found)).flatten
  { total_cases_evaluated := evals.length
    average_completeness_score := pyRound3 avg_completeness
    average_differential_coverage := pyRound3 avg_coverage
    pediatric_appropriateness_rate := pyRound3 (appropriate_count / total)
    cases_with_inappropriate_diagnoses := total - appropriate_count
    section_presence_percentage :=
      { clinical_assessment :=
          ((evals.countP (fun e => e.section_completeness.clinical_assessment) : ℚ) / total) * 100
        differential_diagnosis :=
          ((evals.countP (fun e => e.section_completeness.differential_diagnosis) : ℚ) / total) * 100
        clinical_correlation :=
          ((evals.countP (fun e => e.section_completeness.clinical_correlation) : ℚ) / total) * 100
        recommendations :=
          ((evals.countP (fun e => e.section_completeness.recommendations) : ℚ) / total) * 100 }
    inappropriate_diagnoses_frequency := buildFreq all_inappropriate
    individual_evaluations := evals }

/-- Shallow embedding of `DiagnosticEvaluator.evaluate_batch` on an
already-filtered ground-truth list; `none` models the
`{error: 'No cases to evaluate'}` dictionary. -/
def evaluate_batch (gts : List GroundTruthCase) (results : List ModelResult) :
    Option BatchSummary :=
  let evals := evaluate_batch_evals gts results
  if evals.length = 0 then none else some (computeSummary evals)

/-- The save step of `AnnotationHelper.annotate_report`: remove any existing
entry for the filename, then append the new annotation. -/
def saveGroundTruth (gts : List GroundTruthCase) (g : GroundTruthCase) :
    List GroundTruthCase :=
  (gts.filter (fun x => !(x.filename == g.filename))) ++ [g]

/-- Concrete annotated ground-truth case used in witnesses. -/
def gtA : GroundTruthCase :=
  { filename := "a.txt".toList
    annotated := true
    primary_diagnosis := "dx".toList
    differential_diagnoses := [] }

/-- Concrete batch entry with an empty response text. -/
def mrEmpty : ModelResult :=
  { filename := some "a.txt".toList
    ai_diagnosis := []
    processing_time := 0 }

/-- Concrete batch entry whose filename matches no ground truth. -/
def mrNoGT : ModelResult :=
  { filename := some "b.txt".toList
    ai_diagnosis := "text".toList
    processing_time := 0 }

/-- First duplicate ground-truth entry for case1.txt. -/
def gtDup1 : GroundTruthCase :=
  { filename := "case1.txt".toList
    annotated := true
    primary_diagnosis := "dxA".toList
    differential_diagnoses := ["alpha".toList] }

/-- Second duplicate ground-truth entry for the same filename. -/
def gtDup2 : GroundTruthCase :=
  { filename := "case1.txt".toList
    annotated := true
    primary_diagnosis := "dxB".toList
    differential_diagnoses := ["beta".toList] }

/-- Unrelated ground-truth entry. -/
def gtOther : GroundTruthCase :=
  { filename := "z.txt".toList
    annotated := true
    primary_diagnosis := "dxZ".toList
    differential_diagnoses := [] }

/-- Annotated ground-truth case with three expected differentials. -/
def gtCov : GroundTruthCase :=
  { filename := "c1.txt".toList
    annotated := true
    primary_diagnosis := "dx".toList
    differential_diagnoses := ["alpha".toList, "beta".toList, "gamma".toList] }

/-- Batch entry whose response mentions only one of the three differentials. -/
def mrCov : ModelResult :=
  { filename := some "c1.txt".toList
    ai_diagnosis := "alpha present".toList
    processing_time := 0 }

def exU : List Char := "EXAMINATION:".toList
def cdU : List Char := "CLINICAL DETAILS:".toList
def cmpU : List Char := "COMPARISON:".toList
def fndU : List Char := "FINDINGS:".toList
def cncU : List Char := "CONCLUSION:".toList
def rbU : List Char := "REPORTED BY:".toList

/-- Suffix of a canonical report from the conclusion body on. -/
def tail5 (e f : List Char) : List Char := e ++ (rbU ++ f)

/-- Suffix from the findings body on. -/
def tail4 (d e f : List Char) : List Char := d ++ (cncU ++ tail5 e f)

/-- Suffix from the comparison body on. -/
def tail3 (c d e f : List Char) : List Char := c ++ (fndU ++ tail4 d e f)

/-- Suffix from the clinical-details body on. -/
def tail2 (b c d e f : List Char) : List Char := b ++ (cmpU ++ tail3 c d e f)

/-- Suffix from the examination body on. -/
def tail1 (a b c d e f : List Char) : List Char := a ++ (cdU ++ tail2 b c d e f)

/-- A report with the five canonical labels in standard order around the
bodies `a` … `e`, with trailing text `f` after REPORTED BY:. -/
def reportText (a b c d e f : List Char) : List Char := exU ++ tail1 a b c d e f


/-! Sanity checks evaluating the embedded code on concrete inputs. -/

example :
    extract_report_sections "EXAMINATION: xr CLINICAL DETAILS: cd COMPARISON: no FINDINGS: f CONCLUSION: c REPORTED BY: dr".toList =
      { examination := "xr".toList, clinical_details := "cd".toList,
        comparison := "no".toList, findings := "f".toList, conclusion := "c".toList } := by
  decide

example : pySplit "  jia  flare ".toList = ["jia".toList, "flare".toList] := by decide

example : pyRound3 (1/3) = 333/1000 := by with_unfolding_all decide
example : pyRound3 (1/4) = 1/4 := by with_unfolding_all decide
example : pyRound3 (1/2000) = 0 := by with_unfolding_all decide
example : pyRound3 (3/2000) = 2/1000 := by with_unfolding_all decide


/-! Helper lemmas about the string primitives. -/

lemma ciFindGe_zero (t hay : List Char) : ciFindGe t hay 0 = true := by
  unfold ciFindGe
  cases ciFind t hay <;> simp [Nat.ble]

lemma ciIsPrefixOf_append (t u v : List Char) (h : ciIsPrefixOf t u = true) :
    ciIsPrefixOf t (u ++ v) = true := by
  induction t generalizing u with
  | nil => rfl
  | cons a as ih =>
    cases u with
    | nil => simp [ciIsPrefixOf] at h
    | cons b bs =>
      simp only [ciIsPrefixOf, Bool.and_eq_true] at h ⊢
      exact ⟨h.1, ih bs h.2⟩

lemma isPrefixOf_map (f : Char → Char) (n h : List Char) (hp : n.isPrefixOf h = true) :
    (n.map f).isPrefixOf (h.map f) = true := by
  induction n generalizing h with
  | nil => simp [List.isPrefixOf]
  | cons a as ih =>
    cases h with
    | nil => simp [List.isPrefixOf] at hp
    | cons b bs =>
      simp only [List.isPrefixOf, Bool.and_eq_true, beq_iff_eq] at hp ⊢
      exact ⟨by rw [hp.1], ih bs hp.2⟩

lemma containsSub_map (f : Char → Char) (n h : List Char) (hc : containsSub n h = true) :
    containsSub (n.map f) (h.map f) = true := by
  induction h with
  | nil =>
    simp only [containsSub, List.isEmpty_iff] at hc ⊢
    simp [hc]
  | cons c rest ih =>
    simp only [containsSub, Bool.or_eq_true] at hc ⊢
    rcases hc with hp | hr
    · exact Or.inl (isPrefixOf_map f n (c :: rest) hp)
    · exact Or.inr (ih hr)

lemma isPrefixOf_trans (m n h : List Char) (h1 : m.isPrefixOf n = true)
    (h2 : n.isPrefixOf h = true) : m.isPrefixOf h = true := by
  induction m generalizing n h with
  | nil => simp [List.isPrefixOf]
  | cons a as ih =>
    cases n with
    | nil => simp [List.isPrefixOf] at h1
    | cons b bs =>
      cases h with
      | nil => simp [List.isPrefixOf] at h2
      | cons c cs =>
        simp only [List.isPrefixOf, Bool.and_eq_true, beq_iff_eq] at h1 h2 ⊢
        exact ⟨h1.1.trans h2.1, ih bs cs h1.2 h2.2⟩

lemma containsSub_of_isPrefixOf (m n h : List Char) (h1 : m.isPrefixOf n = true)
    (h2 : containsSub n h = true) : containsSub m h = true := by
  induction h with
  | nil =>
    simp only [containsSub, List.isEmpty_iff] at h2 ⊢
    subst h2
    cases m with
    | nil => rfl
    | cons a as => simp [List.isPrefixOf] at h1
  | cons c rest ih =>
    simp only [containsSub, Bool.or_eq_true] at h2 ⊢
    rcases h2 with hp | hr
    · exact Or.inl (isPrefixOf_trans m n (c :: rest) h1 hp)
    · exact Or.inr (ih hr)

/-! Claim C4: the pediatric-appropriateness flag. -/

/-- C4: the per-case pediatric-appropriateness flag is exactly 0 iff at least
one of the seven configured adult-only condition phrases occurs
case-insensitively as a substring of the response, and exactly 1 otherwise. -/
theorem C4_pediatric_flag (ai_diagnosis : List Char) :
    (pediatricAppropriateness ai_diagnosis = 0 ↔
      adult_only_conditions.any (fun c => containsSub c (toLowerL ai_diagnosis)) = true) ∧
    (pediatricAppropriateness ai_diagnosis = 1 ↔
      adult_only_conditions.any (fun c => containsSub c (toLowerL ai_diagnosis)) = false) := by
  have key : (detect_inappropriate_diagnoses ai_diagnosis).length = 0 ↔
      adult_only_conditions.any (fun c => containsSub c (toLowerL ai_diagnosis)) = false := by
    unfold detect_inappropriate_diagnoses
    rw [List.length_eq_zero, List.filter_eq_nil_iff]
    rw [← Bool.not_eq_true, List.any_eq_true]
    simp
  rcases Bool.eq_false_or_eq_true
    (adult_only_conditions.any (fun c => containsSub c (toLowerL ai_diagnosis))) with ht | hf
  · have hz : ¬(detect_inappropriate_diagnoses ai_diagnosis).length = 0 := by
      intro h0
      rw [key.mp h0] at ht
      exact absurd ht (by simp)
    unfold pediatricAppropriateness
    rw [if_neg hz, ht]
    exact ⟨by simp, ⟨fun h => absurd h (by norm_num), fun h => absurd h (by simp)⟩⟩
  · have hz : (detect_inappropriate_diagnoses ai_diagnosis).length = 0 := key.mpr hf
    unfold pediatricAppropriateness
    rw [if_pos hz, hf]
    exact ⟨⟨fun h => absurd h (by norm_num), fun h => absurd h (by simp)⟩, by simp⟩

/-- C4 witness: on a response containing "osteoarthritis" the flag is 0. -/
theorem C4_pediatric_flag_witness :
    pediatricAppropriateness "shows osteoarthritis of the knee".toList = 0 :=
  (C4_pediatric_flag "shows osteoarthritis of the knee".toList).1.mpr (by decide)

/-! Claim C7: no de-duplication across overlapping phrases. -/

/-- C7: every configured phrase that matches is recorded; in particular a
response containing the text "degenerative disc disease" yields a list
containing both "degenerative" and "degenerative disc disease". -/
theorem C7_overlap_double_count (ai_diagnosis : List Char)
    (h : containsSub "degenerative disc disease".toList ai_diagnosis = true) :
    "degenerative".toList ∈ detect_inappropriate_diagnoses ai_diagnosis ∧
    "degenerative disc disease".toList ∈ detect_inappropriate_diagnoses ai_diagnosis := by
  have hlow : containsSub "degenerative disc disease".toList (toLowerL ai_diagnosis) = true := by
    have := containsSub_map Char.toLower "degenerative disc disease".toList ai_diagnosis h
    rw [show ("degenerative disc disease".toList.map Char.toLower) =
      "degenerative disc disease".toList from by decide] at this
    exact this
  have hshort : containsSub "degenerative".toList (toLowerL ai_diagnosis) = true :=
    containsSub_of_isPrefixOf "degenerative".toList "degenerative disc disease".toList
      (toLowerL ai_diagnosis) (by decide) hlow
  unfold detect_inappropriate_diagnoses
  exact ⟨List.mem_filter.mpr ⟨by decide, hshort⟩, List.mem_filter.mpr ⟨by decide, hlow⟩⟩

/-- C7 witness at a concrete response. -/
theorem C7_overlap_double_count_witness :
    "degenerative".toList ∈
      detect_inappropriate_diagnoses "likely degenerative disc disease here".toList ∧
    "degenerative disc disease".toList ∈
      detect_inappropriate_diagnoses "likely degenerative disc disease here".toList :=
  C7_overlap_double_count "likely degenerative disc disease here".toList (by decide)

/-! Claim C3: section completeness flags and score. -/

lemma completenessScore_cases (s : SectionFlags) :
    ∃ k : ℕ, k ≤ 4 ∧ completenessScore s = (k : ℚ) / 4 := by
  refine ⟨(if s.clinical_assessment then 1 else 0) + (if s.differential_diagnosis then 1 else 0)
    + (if s.clinical_correlation then 1 else 0) + (if s.recommendations then 1 else 0), ?_, ?_⟩
  · split_ifs <;> omega
  · unfold completenessScore
    push_cast
    split_ifs <;> norm_num

/-- C3: each of the four flags is set iff the lowered response contains the
section's canonical phrase or its ordinal numeral marker, and the resulting
completeness score is a multiple of 0.25 in [0, 1]. -/
theorem C3_section_completeness (ai_diagnosis : List Char) :
    ((check_section_completeness ai_diagnosis).clinical_assessment = true ↔
      (containsSub "clinical assessment".toList (toLowerL ai_diagnosis) = true ∨
        containsSub "1.".toList (toLowerL ai_diagnosis) = true)) ∧
    ((check_section_completeness ai_diagnosis).differential_diagnosis = true ↔
      (containsSub "differential diagnosis".toList (toLowerL ai_diagnosis) = true ∨
        containsSub "2.".toList (toLowerL ai_diagnosis) = true)) ∧
    ((check_section_completeness ai_diagnosis).clinical_correlation = true ↔
      (containsSub "clinical correlation".toList (toLowerL ai_diagnosis) = true ∨
        containsSub "3.".toList (toLowerL ai_diagnosis) = true)) ∧
    ((check_section_completeness ai_diagnosis).recommendations = true ↔
      (containsSub "recommendation".toList (toLowerL ai_diagnosis) = true ∨
        containsSub "4.".toList (toLowerL ai_diagnosis) = true)) ∧
    (∃ k : ℕ, k ≤ 4 ∧
      completenessScore (check_section_completeness ai_diagnosis) = (k : ℚ) / 4) ∧
    0 ≤ completenessScore (check_section_completeness ai_diagnosis) ∧
    completenessScore (check_section_completeness ai_diagnosis) ≤ 1 := by
  refine ⟨by simp [check_section_completeness], by simp [check_section_completeness],
    by simp [check_section_completeness], by simp [check_section_completeness],
    completenessScore_cases _, ?_, ?_⟩
  · rcases completenessScore_cases (check_section_completeness ai_diagnosis) with ⟨k, _, hk⟩
    rw [hk]
    positivity
  · rcases completenessScore_cases (check_section_completeness ai_diagnosis) with ⟨k, hk4, hk⟩
    rw [hk]
    rw [div_le_one (by norm_num)]
    exact_mod_cast hk4

example : completenessScore (check_section_completeness "1. x 2. y recommendation".toList) = 3/4 := by
  with_unfolding_all decide

/-- C3 witness: on a concrete numbered response the first flag is set. -/
theorem C3_section_completeness_witness :
    (check_section_completeness "1. a 2. b 3. c 4. d".toList).clinical_assessment = true :=
  (C3_section_completeness "1. a 2. b 3. c 4. d".toList).1.mpr (Or.inr (by decide))

/-! Claim C2: differential coverage. -/

/-- C2: a diagnosis is marked mentioned iff some whitespace-delimited term of
its lower-casing longer than 3 characters occurs in the lowered response and
missed otherwise; the coverage rate is mentioned/total, lies in [0, 1], and is
exactly 0 (not an error) on an empty expected list. -/
theorem C2_differential_coverage (ai_diagnosis : List Char)
    (expected_diagnoses : List (List Char)) :
    (∀ d, d ∈ (check_differential_coverage ai_diagnosis expected_diagnoses).mentioned ↔
      (d ∈ expected_diagnoses ∧
        (pySplit (toLowerL d)).any
          (fun term => decide (3 < term.length) &&
            containsSub term (toLowerL ai_diagnosis)) = true)) ∧
    (∀ d, d ∈ (check_differential_coverage ai_diagnosis expected_diagnoses).missed ↔
      (d ∈ expected_diagnoses ∧
        ¬((pySplit (toLowerL d)).any
          (fun term => decide (3 < term.length) &&
            containsSub term (toLowerL ai_diagnosis)) = true))) ∧
    (check_differential_coverage ai_diagnosis expected_diagnoses).coverage_rate =
      (if expected_diagnoses.isEmpty then 0 else
        (((check_differential_coverage ai_diagnosis expected_diagnoses).mentioned.length : ℚ) /
          (expected_diagnoses.length : ℚ))) ∧
    0 ≤ (check_differential_coverage ai_diagnosis expected_diagnoses).coverage_rate ∧
    (check_differential_coverage ai_diagnosis expected_diagnoses).coverage_rate ≤ 1 ∧
    (expected_diagnoses = [] →
      (check_differential_coverage ai_diagnosis expected_diagnoses).coverage_rate = 0) ∧
    (check_differential_coverage ai_diagnosis expected_diagnoses).total_expected =
      expected_diagnoses.length := by
  have hmem : ∀ d, d ∈ (check_differential_coverage ai_diagnosis expected_diagnoses).mentioned ↔
      (d ∈ expected_diagnoses ∧
        (pySplit (toLowerL d)).any
          (fun term => decide (3 < term.length) &&
            containsSub term (toLowerL ai_diagnosis)) = true) := by
    intro d
    unfold check_differential_coverage diagnosisMentioned
    exact List.mem_filter
  have hlen : ((check_differential_coverage ai_diagnosis expected_diagnoses).mentioned.length) ≤
      expected_diagnoses.length := by
    unfold check_differential_coverage
    exact List.length_filter_le _ _
  have hrate : (check_differential_coverage ai_diagnosis expected_diagnoses).coverage_rate =
      (if expected_diagnoses.isEmpty then 0 else
        (((check_differential_coverage ai_diagnosis expected_diagnoses).mentioned.length : ℚ) /
          (expected_diagnoses.length : ℚ))) := by
    unfold check_differential_coverage
    rfl
  refine ⟨hmem, ?_, hrate, ?_, ?_, ?_, rfl⟩
  · intro d
    unfold check_differential_coverage diagnosisMentioned
    rw [List.mem_filter]
    simp
  · rw [hrate]
    split
    · norm_num
    · positivity
  · rw [hrate]
    split
    · norm_num
    · rename_i hne
      rw [div_le_one]
      · exact_mod_cast hlen
      · have : expected_diagnoses ≠ [] := by
          intro h0
          exact hne (by simp [h0])
        have hpos : 0 < expected_diagnoses.length := List.length_pos.mpr this
        exact_mod_cast hpos
  · intro h0
    rw [hrate, h0]
    simp

/-- C2 witness: the spec's own worked example has coverage rate 1. -/
theorem C2_differential_coverage_witness :
    (check_differential_coverage
      "1. Assessment 2. Differential diagnosis: JIA vs septic arthritis".toList
      ["Septic arthritis".toList, "Juvenile Idiopathic Arthritis (JIA)".toList]).coverage_rate
      = 1 := by
  have h := (C2_differential_coverage
    "1. Assessment 2. Differential diagnosis: JIA vs septic arthritis".toList
    ["Septic arthritis".toList, "Juvenile Idiopathic Arthritis (JIA)".toList]).2.2.1
  rw [h]
  norm_num
  with_unfolding_all decide

/-! Claim C10: falsy batch entries are skipped. -/

/-- C10: a batch entry with a missing filename or an empty response text
produces no CaseEvaluation — even when matching annotated ground truth
exists — and contributes nothing to the evaluation list or the summary. -/
theorem C10_falsy_entries_skipped (gts : List GroundTruthCase)
    (results : List ModelResult) (r : ModelResult)
    (h : r.filename = none ∨ r.ai_diagnosis = []) :
    evalOneResult gts r = none ∧
    evaluate_batch_evals gts (r :: results) = evaluate_batch_evals gts results ∧
    evaluate_batch gts (r :: results) = evaluate_batch gts results := by
  have hone : evalOneResult gts r = none := by
    unfold evalOneResult
    rcases h with hfn | hai
    · rw [hfn]
    · cases hfn : r.filename with
      | none => rfl
      | some fn =>
        rw [hai]
        simp
  have hevals : evaluate_batch_evals gts (r :: results) = evaluate_batch_evals gts results := by
    unfold evaluate_batch_evals
    rw [List.filterMap_cons, hone]
  refine ⟨hone, hevals, ?_⟩
  unfold evaluate_batch
  rw [hevals]

/-- C10 witness: an entry with empty response text is dropped even though an
annotated ground-truth case matches its filename. -/
theorem C10_falsy_entries_skipped_witness :
    evalOneResult [gtA] mrEmpty = none :=
  (C10_falsy_entries_skipped [gtA] [] mrEmpty (Or.inr rfl)).1

/-! Claim C6: unmatched or unannotated cases are silently excluded. -/

/-- C6: the evaluator keeps only annotated ground truth; a result whose
filename matches no annotated ground-truth case yields no CaseEvaluation, is
silently dropped from the batch, and the summary total counts only the
matched results. -/
theorem C6_unmatched_excluded (raw : List GroundTruthCase)
    (results : List ModelResult) (r : ModelResult)
    (h : ∀ g ∈ raw, g.annotated = true → ∀ fn, r.filename = some fn → g.filename ≠ fn) :
    (∀ g ∈ load_ground_truth raw, g.annotated = true) ∧
    evalOneResult (load_ground_truth raw) r = none ∧
    evaluate_batch_evals (load_ground_truth raw) (r :: results) =
      evaluate_batch_evals (load_ground_truth raw) results ∧
    (∀ s, evaluate_batch (load_ground_truth raw) (r :: results) = some s →
      s.total_cases_evaluated =
        (evaluate_batch_evals (load_ground_truth raw) results).length) := by
  have hann : ∀ g ∈ load_ground_truth raw, g.annotated = true := by
    intro g hg
    exact (List.mem_filter.mp hg).2
  have hfind : ∀ fn, r.filename = some fn → findGT (load_ground_truth raw) fn = none := by
    intro fn hfn
    unfold findGT
    rw [List.find?_eq_none]
    intro g hg
    have hmem := List.mem_filter.mp hg
    have := h g hmem.1 hmem.2 fn hfn
    simp [this]
  have hone : evalOneResult (load_ground_truth raw) r = none := by
    unfold evalOneResult
    cases hfn : r.filename with
    | none => rfl
    | some fn =>
      have h2 : evaluate_single_case (load_ground_truth raw) fn r.ai_diagnosis = none := by
        unfold evaluate_single_case
        rw [hfind fn hfn]
      simp [h2]
  have hevals : evaluate_batch_evals (load_ground_truth raw) (r :: results) =
      evaluate_batch_evals (load_ground_truth raw) results := by
    unfold evaluate_batch_evals
    rw [List.filterMap_cons, hone]
  refine ⟨hann, hone, hevals, ?_⟩
  intro s hs
  unfold evaluate_batch at hs
  rw [hevals] at hs
  by_cases hz : (evaluate_batch_evals (load_ground_truth raw) results).length = 0
  · rw [if_pos hz] at hs
    exact absurd hs (by simp)
  · rw [if_neg hz] at hs
    cases hs
    rfl

/-- C6 witness: a result for a file absent from the annotated ground truth is
dropped. -/
theorem C6_unmatched_excluded_witness :
    evalOneResult (load_ground_truth [gtA]) mrNoGT = none :=
  (C6_unmatched_excluded [gtA] [] mrNoGT (by decide)).2.1

/-! Claim C5: duplicate ground-truth entries for one filename. -/

lemma find?_append_left_none {α : Type} (p : α → Bool) (l1 l2 : List α)
    (h : ∀ x ∈ l1, p x = false) : (l1 ++ l2).find? p = l2.find? p := by
  induction l1 with
  | nil => rfl
  | cons x xs ih =>
    rw [List.cons_append, List.find?_cons_of_neg, ih]
    · intro y hy
      exact h y (List.mem_cons_of_mem x hy)
    · simp [h x (List.mem_cons_self x xs)]

/-- C5 counterexample: with two entries for the same filename the evaluation
reflects the FIRST entry, not the last one the claim promises. -/
theorem C5_last_wins_counterexample :
    (evaluate_single_case [gtDup1, gtDup2] "case1.txt".toList "r".toList).map
      (fun e => e.gt_primary_diagnosis) = some gtDup1.primary_diagnosis ∧
    (evaluate_single_case [gtDup1, gtDup2] "case1.txt".toList "r".toList).map
      (fun e => e.gt_primary_diagnosis) ≠ some gtDup2.primary_diagnosis := by
  constructor
  · with_unfolding_all decide
  · with_unfolding_all decide

/-- C5 amended: the join considers at most one ground-truth entry per
filename and the FIRST matching entry wins; this is consistent with the
store's save step, after which the saved annotation is the unique match. -/
theorem C5_first_match_wins (gts1 gts2 : List GroundTruthCase) (g : GroundTruthCase)
    (ai_diagnosis : List Char)
    (h : ∀ g1 ∈ gts1, (g1.filename == g.filename) = false) :
    evaluate_single_case (gts1 ++ g :: gts2) g.filename ai_diagnosis =
      evaluate_single_case [g] g.filename ai_diagnosis ∧
    (∀ gts : List GroundTruthCase, findGT (saveGroundTruth gts g) g.filename = some g) := by
  have hg : findGT [g] g.filename = some g := by
    unfold findGT
    rw [List.find?_cons_of_pos]
    simp
  constructor
  · have hfg : findGT (gts1 ++ g :: gts2) g.filename = some g := by
      unfold findGT
      rw [find?_append_left_none _ gts1 (g :: gts2) h, List.find?_cons_of_pos]
      simp
    unfold evaluate_single_case
    rw [hfg, hg]
  · intro gts
    unfold findGT saveGroundTruth
    rw [find?_append_left_none _ _ [g], List.find?_cons_of_pos]
    · simp
    · intro x hx
      have := (List.mem_filter.mp hx).2
      simpa using this

/-- C5 amended witness: a non-matching entry ahead of the match is ignored. -/
theorem C5_first_match_wins_witness :
    evaluate_single_case [gtOther, gtDup1] gtDup1.filename "r".toList =
      evaluate_single_case [gtDup1] gtDup1.filename "r".toList :=
  (C5_first_match_wins [gtOther] [] gtDup1 "r".toList (by decide)).1

/-! Claim C9: extraction is total and degrades to empty sections. -/

lemma dropAfterFirstLabelCI_eq_none (labels : List (List Char)) (text : List Char)
    (h : ∀ l ∈ labels, ciFind l text = none) :
    dropAfterFirstLabelCI labels text = none := by
  induction text with
  | nil => rfl
  | cons c rest ih =>
    have hpref : ∀ l ∈ labels, ciIsPrefixOf l (c :: rest) = false := by
      intro l hl
      rcases Bool.eq_false_or_eq_true (ciIsPrefixOf l (c :: rest)) with ht | hf
      · have := h l hl
        unfold ciFind at this
        rw [if_pos ht] at this
        exact absurd this (by simp)
      · exact hf
    have hrest : ∀ l ∈ labels, ciFind l rest = none := by
      intro l hl
      have := h l hl
      unfold ciFind at this
      rw [if_neg (by simp [hpref l hl])] at this
      exact Option.map_eq_none.mp this
    unfold dropAfterFirstLabelCI
    rw [List.find?_eq_none.mpr (fun l hl => by simp [hpref l hl])]
    exact ih hrest

lemma extractField_of_absent (labels terms : List (List Char)) (text : List Char)
    (h : ∀ l ∈ labels, ciFind l text = none) :
    extractField labels terms text = [] := by
  unfold extractField
  rw [dropAfterFirstLabelCI_eq_none labels text h]

/-- C9: extraction is a total function into a record with exactly the five
section keys, and every section whose label (or either of its alternative
labels) does not occur case-insensitively in the text is the empty string. -/
theorem C9_absent_labels_empty (text : List Char) :
    (ciFind exL text = none → (extract_report_sections text).examination = []) ∧
    (ciFind cdL text = none → (extract_report_sections text).clinical_details = []) ∧
    (ciFind cmpL text = none → (extract_report_sections text).comparison = []) ∧
    (ciFind fndL text = none → ciFind repL text = none →
      (extract_report_sections text).findings = []) ∧
    (ciFind cncL text = none → ciFind impL text = none →
      (extract_report_sections text).conclusion = []) := by
  refine ⟨?_, ?_, ?_, ?_, ?_⟩
  · intro h1
    exact extractField_of_absent _ _ _ (by simp [h1])
  · intro h1
    exact extractField_of_absent _ _ _ (by simp [h1])
  · intro h1
    exact extractField_of_absent _ _ _ (by simp [h1])
  · intro h1 h2
    exact extractField_of_absent _ _ _ (by simp [h1, h2])
  · intro h1 h2
    exact extractField_of_absent _ _ _ (by simp [h1, h2])

/-- C9 witness: a wholly unrecognized report format yields all-empty
sections. -/
theorem C9_absent_labels_empty_witness :
    (extract_report_sections "hello plain note".toList).examination = [] ∧
    (extract_report_sections "hello plain note".toList).clinical_details = [] ∧
    (extract_report_sections "hello plain note".toList).comparison = [] ∧
    (extract_report_sections "hello plain note".toList).findings = [] ∧
    (extract_report_sections "hello plain note".toList).conclusion = [] :=
  ⟨(C9_absent_labels_empty _).1 (by decide),
   (C9_absent_labels_empty _).2.1 (by decide),
   (C9_absent_labels_empty _).2.2.1 (by decide),
   (C9_absent_labels_empty _).2.2.2.1 (by decide) (by decide),
   (C9_absent_labels_empty _).2.2.2.2 (by decide) (by decide)⟩

/-! Claim C8: aggregate statistics of the batch summary. -/

/-- C8 counterexample: the stored average differential coverage is NOT the
arithmetic mean of the per-case coverage rates — here the mean is 1/3 but the
summary stores the value rounded to three decimals. -/
theorem C8_means_counterexample :
    (evaluate_batch [gtCov] [mrCov]).map (fun s => s.average_differential_coverage) ≠
      some (((evaluate_batch_evals [gtCov] [mrCov]).map
          (fun e => e.differential_coverage.coverage_rate)).sum /
        ((evaluate_batch_evals [gtCov] [mrCov]).length : ℚ)) := by
  with_unfolding_all decide

lemma sum_flags_eq_count (evals : List CaseEvaluation)
    (h : ∀ e ∈ evals, e.pediatric_appropriateness = 0 ∨ e.pediatric_appropriateness = 1) :
    (evals.map (fun e => e.pediatric_appropriateness)).sum =
      ((evals.filter (fun e => decide (e.pediatric_appropriateness = 1))).length : ℚ) := by
  induction evals with
  | nil => simp
  | cons e rest ih =>
    have hrest := ih (fun x hx => h x (List.mem_cons_of_mem e hx))
    rw [List.map_cons, List.sum_cons, List.filter_cons, hrest]
    rcases h e (List.mem_cons_self e rest) with h0 | h1
    · rw [h0]
      rw [show (decide ((0 : ℚ) = 1)) = false from decide_eq_false (by norm_num)]
      simp
    · rw [h1]
      rw [show (decide ((1 : ℚ) = 1)) = true from decide_eq_true rfl]
      simp only [if_true, List.length_cons]
      push_cast
      ring

lemma buildFreq_go (l : List (List Char)) (f : List Char → ℕ) (p : List Char) :
    (l.foldl (fun f d => fun x => if x = d then f d + 1 else f x) f) p = f p + l.count p := by
  induction l generalizing f with
  | nil => simp
  | cons d rest ih =>
    rw [List.foldl_cons, ih, List.count_cons]
    by_cases hp : p = d
    · subst hp
      simp
      omega
    · have hdp : ¬d = p := fun hdp => hp hdp.symm
      simp [hp, hdp]

lemma buildFreq_count (l : List (List Char)) (p : List Char) :
    buildFreq l p = l.count p := by
  unfold buildFreq
  rw [buildFreq_go]
  omega

/-- C8 amended: for every non-empty list of per-case evaluations (whose
appropriateness flags are binary, as the pipeline produces), the summary
stores the arithmetic means of completeness, coverage and the appropriateness
flags ROUNDED HALF-TO-EVEN TO THREE DECIMALS, while the section percentages,
the count of cases with any inappropriate diagnosis, and the
inappropriate-diagnosis frequency table are exact as claimed. -/
theorem C8_batch_summary_amended (evals : List CaseEvaluation)
    (hne : evals ≠ [])
    (hflags : ∀ e ∈ evals, e.pediatric_appropriateness = 0 ∨ e.pediatric_appropriateness = 1) :
    (computeSummary evals).total_cases_evaluated = evals.length ∧
    (computeSummary evals).average_completeness_score =
      pyRound3 ((evals.map (fun e => e.completeness_score)).sum / (evals.length : ℚ)) ∧
    (computeSummary evals).average_differential_coverage =
      pyRound3 ((evals.map (fun e => e.differential_coverage.coverage_rate)).sum /
        (evals.length : ℚ)) ∧
    (computeSummary evals).pediatric_appropriateness_rate =
      pyRound3 (((evals.filter (fun e => decide (e.pediatric_appropriateness = 1))).length : ℚ) /
        (evals.length : ℚ)) ∧
    (computeSummary evals).cases_with_inappropriate_diagnoses =
      (evals.length : ℚ) -
        ((evals.filter (fun e => decide (e.pediatric_appropriateness = 1))).length : ℚ) ∧
    (computeSummary evals).section_presence_percentage.clinical_assessment =
      (((evals.filter (fun e => e.section_completeness.clinical_assessment)).length : ℚ) /
        (evals.length : ℚ)) * 100 ∧
    (computeSummary evals).section_presence_percentage.differential_diagnosis =
      (((evals.filter (fun e => e.section_completeness.differential_diagnosis)).length : ℚ) /
        (evals.length : ℚ)) * 100 ∧
    (computeSummary evals).section_presence_percentage.clinical_correlation =
      (((evals.filter (fun e => e.section_completeness.clinical_correlation)).length : ℚ) /
        (evals.length : ℚ)) * 100 ∧
    (computeSummary evals).section_presence_percentage.recommendations =
      (((evals.filter (fun e => e.section_completeness.recommendations)).length : ℚ) /
        (evals.length : ℚ)) * 100 ∧
    (∀ p, (computeSummary evals).inappropriate_diagnoses_frequency p =
      ((evals.map (fun e => e.inappropriate_diagnoses_found)).flatten).count p) := by
  have hsum := sum_flags_eq_count evals hflags
  unfold computeSummary
  refine ⟨rfl, rfl, rfl, ?_, ?_, ?_, ?_, ?_, ?_, ?_⟩
  · show pyRound3 ((evals.map (fun e => e.pediatric_appropriateness)).sum / (evals.length : ℚ)) = _
    rw [hsum]
  · show (evals.length : ℚ) - (evals.map (fun e => e.pediatric_appropriateness)).sum = _
    rw [hsum]
  · show ((evals.countP (fun e => e.section_completeness.clinical_assessment) : ℚ) /
      (evals.length : ℚ)) * 100 = _
    rw [List.countP_eq_length_filter]
  · show ((evals.countP (fun e => e.section_completeness.differential_diagnosis) : ℚ) /
      (evals.length : ℚ)) * 100 = _
    rw [List.countP_eq_length_filter]
  · show ((evals.countP (fun e => e.section_completeness.clinical_correlation) : ℚ) /
      (evals.length : ℚ)) * 100 = _
    rw [List.countP_eq_length_filter]
  · show ((evals.countP (fun e => e.section_completeness.recommendations) : ℚ) /
      (evals.length : ℚ)) * 100 = _
    rw [List.countP_eq_length_filter]
  · intro p
    show buildFreq ((evals.map (fun e => e.inappropriate_diagnoses_found)).flatten) p = _
    exact buildFreq_count _ p

/-- C8 amended witness: the stored average coverage on a concrete batch is
the rounded mean. -/
theorem C8_batch_summary_amended_witness :
    (computeSummary (evaluate_batch_evals [gtCov] [mrCov])).average_differential_coverage =
      pyRound3 (((evaluate_batch_evals [gtCov] [mrCov]).map
          (fun e => e.differential_coverage.coverage_rate)).sum /
        ((evaluate_batch_evals [gtCov] [mrCov]).length : ℚ)) :=
  (C8_batch_summary_amended (evaluate_batch_evals [gtCov] [mrCov])
    (by with_unfolding_all decide) (by with_unfolding_all decide)).2.2.1

/-! Claim C1: extraction on well-formed reports. -/

lemma ciFind_cons_pos {t : List Char} {c : Char} {z : List Char}
    (h : ciIsPrefixOf t (c :: z) = true) : ciFind t (c :: z) = some 0 := by
  unfold ciFind
  rw [if_pos h]

lemma ciFind_cons_neg {t : List Char} {c : Char} {z : List Char}
    (h : ciIsPrefixOf t (c :: z) = false) :
    ciFind t (c :: z) = (ciFind t z).map (· + 1) := by
  show (if ciIsPrefixOf t (c :: z) = true then some 0 else (ciFind t z).map (· + 1)) =
    (ciFind t z).map (· + 1)
  rw [if_neg (by simp [h])]

lemma ciFindGe_cons (t : List Char) (c : Char) (z : List Char) (n : Nat)
    (h : ciFindGe t (c :: z) (n + 1) = true) :
    ciIsPrefixOf t (c :: z) = false ∧ ciFindGe t z n = true := by
  rcases Bool.eq_false_or_eq_true (ciIsPrefixOf t (c :: z)) with ht | hf
  · exfalso
    unfold ciFindGe at h
    rw [ciFind_cons_pos ht] at h
    simp [Nat.ble] at h
  · refine ⟨hf, ?_⟩
    unfold ciFindGe at h ⊢
    rw [ciFind_cons_neg hf] at h
    cases hz : ciFind t z with
    | none =>
      rfl
    | some i =>
      rw [hz] at h
      have h2 : Nat.ble (n + 1) (i + 1) = true := by
        simpa using h
      show Nat.ble n i = true
      rw [Nat.ble_eq] at h2 ⊢
      omega

lemma takeUntilAny_append (terms : List (List Char)) (a r : List Char)
    (h1 : ∀ t ∈ terms, ciFindGe t (a ++ r) a.length = true)
    (h2 : terms.any (fun t => ciIsPrefixOf t r) = true) :
    takeUntilAny terms (a ++ r) = a := by
  induction a with
  | nil =>
    cases r with
    | nil => rfl
    | cons c rest =>
      show takeUntilAny terms (c :: rest) = []
      unfold takeUntilAny
      rw [if_pos h2]
  | cons x xs ih =>
    have hx : ∀ t ∈ terms,
        ciIsPrefixOf t (x :: (xs ++ r)) = false ∧ ciFindGe t (xs ++ r) xs.length = true :=
      fun t ht => ciFindGe_cons t x (xs ++ r) xs.length (h1 t ht)
    show takeUntilAny terms (x :: (xs ++ r)) = x :: xs
    unfold takeUntilAny
    rw [if_neg, ih (fun t ht => (hx t ht).2)]
    rw [List.any_eq_true]
    rintro ⟨t, ht, hp⟩
    rw [(hx t ht).1] at hp
    exact absurd hp (by simp)

lemma dropAfterFirstLabelCI_append (labels : List (List Char)) (a r lab : List Char)
    (h1 : ∀ l ∈ labels, ciFindGe l (a ++ r) a.length = true)
    (h2 : labels.find? (fun l => ciIsPrefixOf l r) = some lab)
    (hr : r ≠ []) :
    dropAfterFirstLabelCI labels (a ++ r) = some (r.drop lab.length) := by
  induction a with
  | nil =>
    cases r with
    | nil => exact absurd rfl hr
    | cons c rest =>
      show dropAfterFirstLabelCI labels (c :: rest) = _
      unfold dropAfterFirstLabelCI
      rw [h2]
  | cons x xs ih =>
    have hx : ∀ l ∈ labels,
        ciIsPrefixOf l (x :: (xs ++ r)) = false ∧ ciFindGe l (xs ++ r) xs.length = true :=
      fun l hl => ciFindGe_cons l x (xs ++ r) xs.length (h1 l hl)
    show dropAfterFirstLabelCI labels (x :: (xs ++ r)) = _
    unfold dropAfterFirstLabelCI
    rw [List.find?_eq_none.mpr (fun l hl => by simp [(hx l hl).1])]
    exact ih (fun l hl => (hx l hl).2)

lemma extractField_eq (labels terms : List (List Char)) (pre labU tail lab : List Char)
    (hlen : lab.length = labU.length)
    (h1 : ∀ l ∈ labels, ciFindGe l (pre ++ (labU ++ tail)) pre.length = true)
    (h2 : labels.find? (fun l => ciIsPrefixOf l (labU ++ tail)) = some lab)
    (hlabU : labU ≠ [])
    (body rest2 : List Char)
    (htail : tail = body ++ rest2)
    (h3 : ∀ t ∈ terms, ciFindGe t (body ++ rest2) body.length = true)
    (h4 : terms.any (fun t => ciIsPrefixOf t rest2) = true) :
    extractField labels terms (pre ++ (labU ++ tail)) = pyStrip body := by
  unfold extractField
  rw [dropAfterFirstLabelCI_append labels pre (labU ++ tail) lab h1 h2 (by simp [hlabU])]
  rw [hlen, List.drop_left, htail]
  show pyStrip (takeUntilAny terms (body ++ rest2)) = pyStrip body
  rw [takeUntilAny_append terms body rest2 h3 h4]

/-- C1: on a report carrying the five canonical labels in standard order
(hypotheses: no label or terminator occurrence starts inside a body, stated
as lower bounds on first case-insensitive occurrence positions), extraction
returns exactly the trimmed substrings between the specified boundaries. -/
theorem C1_canonical_report_extraction (a b c d e f : List Char)
    (hA : ∀ t ∈ [cdL, cmpL, fndL], ciFindGe t (tail1 a b c d e f) a.length = true)
    (hB1 : ciFindGe cdL ((exU ++ a) ++ (cdU ++ tail2 b c d e f)) (exU ++ a).length = true)
    (hB2 : ∀ t ∈ [cmpL, fndL], ciFindGe t (tail2 b c d e f) b.length = true)
    (hC1 : ciFindGe cmpL ((exU ++ a ++ cdU ++ b) ++ (cmpU ++ tail3 c d e f))
      (exU ++ a ++ cdU ++ b).length = true)
    (hC2 : ciFindGe fndL (tail3 c d e f) c.length = true)
    (hD1 : ∀ l ∈ [fndL, repL], ciFindGe l ((exU ++ a ++ cdU ++ b ++ cmpU ++ c) ++
      (fndU ++ tail4 d e f)) (exU ++ a ++ cdU ++ b ++ cmpU ++ c).length = true)
    (hD2 : ∀ t ∈ [cncL, impL, rbL], ciFindGe t (tail4 d e f) d.length = true)
    (hE1 : ∀ l ∈ [cncL, impL], ciFindGe l ((exU ++ a ++ cdU ++ b ++ cmpU ++ c ++ fndU ++ d) ++
      (cncU ++ tail5 e f)) (exU ++ a ++ cdU ++ b ++ cmpU ++ c ++ fndU ++ d).length = true)
    (hE2 : ciFindGe rbL (tail5 e f) e.length = true) :
    extract_report_sections (reportText a b c d e f) =
      { examination := pyStrip a
        clinical_details := pyStrip b
        comparison := pyStrip c
        findings := pyStrip d
        conclusion := pyStrip e } := by
  have hrt2 : reportText a b c d e f = (exU ++ a) ++ (cdU ++ tail2 b c d e f) := by
    simp [reportText, tail1, List.append_assoc]
  have hrt3 : reportText a b c d e f = (exU ++ a ++ cdU ++ b) ++ (cmpU ++ tail3 c d e f) := by
    simp [reportText, tail1, tail2, List.append_assoc]
  have hrt4 : reportText a b c d e f =
      (exU ++ a ++ cdU ++ b ++ cmpU ++ c) ++ (fndU ++ tail4 d e f) := by
    simp [reportText, tail1, tail2, tail3, List.append_assoc]
  have hrt5 : reportText a b c d e f =
      (exU ++ a ++ cdU ++ b ++ cmpU ++ c ++ fndU ++ d) ++ (cncU ++ tail5 e f) := by
    simp [reportText, tail1, tail2, tail3, tail4, List.append_assoc]
  have hex : extractField [exL] [cdL, cmpL, fndL] (reportText a b c d e f) = pyStrip a := by
    exact extractField_eq [exL] [cdL, cmpL, fndL] [] exU (tail1 a b c d e f) exL
      (by decide)
      (fun l _ => ciFindGe_zero l _)
      (by rw [List.find?_cons_of_pos]
          exact ciIsPrefixOf_append exL exU _ (by decide))
      (by decide)
      a (cdU ++ tail2 b c d e f) rfl
      hA
      (by rw [List.any_eq_true]
          exact ⟨cdL, by simp, ciIsPrefixOf_append cdL cdU _ (by decide)⟩)
  have hcd : extractField [cdL] [cmpL, fndL] (reportText a b c d e f) = pyStrip b := by
    rw [hrt2]
    exact extractField_eq [cdL] [cmpL, fndL] (exU ++ a) cdU (tail2 b c d e f) cdL
      (by decide)
      (by intro l hl
          simp only [List.mem_singleton] at hl
          subst hl
          exact hB1)
      (by rw [List.find?_cons_of_pos]
          exact ciIsPrefixOf_append cdL cdU _ (by decide))
      (by decide)
      b (cmpU ++ tail3 c d e f) rfl
      hB2
      (by rw [List.any_eq_true]
          exact ⟨cmpL, by simp, ciIsPrefixOf_append cmpL cmpU _ (by decide)⟩)
  have hcmp : extractField [cmpL] [fndL] (reportText a b c d e f) = pyStrip c := by
    rw [hrt3]
    exact extractField_eq [cmpL] [fndL] (exU ++ a ++ cdU ++ b) cmpU (tail3 c d e f) cmpL
      (by decide)
      (by intro l hl
          simp only [List.mem_singleton] at hl
          subst hl
          exact hC1)
      (by rw [List.find?_cons_of_pos]
          exact ciIsPrefixOf_append cmpL cmpU _ (by decide))
      (by decide)
      c (fndU ++ tail4 d e f) rfl
      (by intro t ht
          simp only [List.mem_singleton] at ht
          subst ht
          exact hC2)
      (by rw [List.any_eq_true]
          exact ⟨fndL, by simp, ciIsPrefixOf_append fndL fndU _ (by decide)⟩)
  have hfnd : extractField [fndL, repL] [cncL, impL, rbL] (reportText a b c d e f) =
      pyStrip d := by
    rw [hrt4]
    exact extractField_eq [fndL, repL] [cncL, impL, rbL]
      (exU ++ a ++ cdU ++ b ++ cmpU ++ c) fndU (tail4 d e f) fndL
      (by decide)
      hD1
      (by rw [List.find?_cons_of_pos]
          exact ciIsPrefixOf_append fndL fndU _ (by decide))
      (by decide)
      d (cncU ++ tail5 e f) rfl
      hD2
      (by rw [List.any_eq_true]
          exact ⟨cncL, by simp, ciIsPrefixOf_append cncL cncU _ (by decide)⟩)
  have hcnc : extractField [cncL, impL] [rbL] (reportText a b c d e f) = pyStrip e := by
    rw [hrt5]
    exact extractField_eq [cncL, impL] [rbL]
      (exU ++ a ++ cdU ++ b ++ cmpU ++ c ++ fndU ++ d) cncU (tail5 e f) cncL
      (by decide)
      hE1
      (by rw [List.find?_cons_of_pos]
          exact ciIsPrefixOf_append cncL cncU _ (by decide))
      (by decide)
      e (rbU ++ f) rfl
      (by intro t ht
          simp only [List.mem_singleton] at ht
          subst ht
          exact hE2)
      (by rw [List.any_eq_true]
          exact ⟨rbL, by simp, ciIsPrefixOf_append rbL rbU _ (by decide)⟩)
  unfold extract_report_sections
  rw [hex, hcd, hcmp, hfnd, hcnc]

/-- C1 witness on a concrete canonical report. -/
theorem C1_canonical_report_extraction_witness :
    extract_report_sections
      (reportText " MRI knee ".toList " pain ".toList " none ".toList
        " effusion seen ".toList " JIA likely ".toList " Dr A".toList) =
      { examination := "MRI knee".toList
        clinical_details := "pain".toList
        comparison := "none".toList
        findings := "effusion seen".toList
        conclusion := "JIA likely".toList } := by
  rw [C1_canonical_report_extraction " MRI knee ".toList " pain ".toList " none ".toList
    " effusion seen ".toList " JIA likely ".toList " Dr A".toList
    (by decide) (by decide) (by decide) (by decide) (by decide)
    (by decide) (by decide) (by decide) (by decide)]
  decide
